import Mathlib

/-!
# Verification of the pipeline / job-execution engine of `shell2.c`

A shallow embedding of the pipeline splitter, the pipe/fork orchestrator,
the per-stage redirection scan, the output-redirection file semantics, the
foreground supervisor's status reporting and foreground-pid bookkeeping, and
the fatal-error checks of the prompt loop, together with theorems about them.
Line numbers in doc comments refer to `src/shell2.c`.
-/

namespace Shell2

/-- Tokens are the whitespace-split, quote-stripped strings handed to
`execute_command_with_pipes_and_redirection`. -/
abbrev Token := String

/-- One descriptor of an inter-stage pipe: the pipe's index paired with an
end selector (`false` = read end `fd[0]`, `true` = write end `fd[1]`). -/
abbrev PipeEnd := Nat × Bool

/-- The pipe-splitting loop of `execute_command_with_pipes_and_redirection`
(lines 388-404).  `cur` is the stage currently being accumulated
(`commands_by_pipe[pipe_command_count]`, with `command_token_count` tokens so
far) and `acc` holds the stages already terminated.  A `"|"` token seen while
the current stage is empty is the `printf("Invalid pipe command"); return;`
early exit (lines 390-393), modelled as `none`.  At end of input the final
stage is terminated unconditionally (line 407), even when it is empty. -/
def splitLoop : List Token → List Token → List (List Token) → Option (List (List Token))
  | [], cur, acc => some (acc ++ [cur])
  | t :: rest, cur, acc =>
    if t = "|" then
      if cur = [] then none
      else splitLoop rest [] (acc ++ [cur])
    else splitLoop rest (cur ++ [t]) acc

/-- The Pipeline Splitter: the splitting phase of
`execute_command_with_pipes_and_redirection`, producing the ordered stages
(`commands_by_pipe[0..pipe_command_count]`), or `none` on the
`"Invalid pipe command"` rejection. -/
def splitPipes (toks : List Token) : Option (List (List Token)) :=
  splitLoop toks [] []

/-- Observable resource events of the orchestrating process. -/
inductive Event
  | pipeCreated (i : Nat)
  | forked (i : Nat)
  | parentClosed (d : PipeEnd)
  | waited (i : Nat)
  | launchedDirect
deriving DecidableEq, Repr

/-- Resource-event trace of `execute_command_with_pipes_and_redirection` for
a multi-stage pipeline of `n` stages (so `num_pipes = n - 1`), on the path
where every `pipe()` and `fork()` call succeeds: all pipes are created up
front (lines 420-425), one child is forked per stage (lines 428-487), the
parent then closes both ends of every pipe (lines 490-493) and finally waits
for every child (lines 496-498). -/
def orchestrateEvents (n : Nat) : List Event :=
  ((List.range (n - 1)).map Event.pipeCreated)
    ++ ((List.range n).map Event.forked)
    ++ ((List.range (n - 1)).flatMap
        (fun i => [Event.parentClosed (i, false), Event.parentClosed (i, true)]))
    ++ ((List.range n).map Event.waited)

/-- `execute_command_with_pipes_and_redirection` (lines 376-499) at the level
of stage splitting and orchestrator resource events: a rejected pipeline
returns before any `pipe()` or `fork()` (lines 390-393; empty trace); a
single-stage pipeline (`num_pipes == 0`) takes the no-pipe fast path, calling
`execute_single_command` directly with no pipe machinery (lines 412-417); a
multi-stage pipeline produces the full orchestration trace. -/
def execute_command_with_pipes_and_redirection (toks : List Token) :
    Option (List (List Token)) × List Event :=
  match splitPipes toks with
  | none => (none, [])
  | some stages =>
    if stages.length - 1 = 0 then (some stages, [Event.launchedDirect])
    else (some stages, orchestrateEvents stages.length)

/-- Effect of one orchestrator event on the list of pipe descriptors open in
the orchestrating process: `pipe()` opens both ends (line 421), the parent
close loop closes one end at a time (lines 490-493); forking, waiting and
the direct launch do not change the parent's descriptor table. -/
def fdStep (s : List PipeEnd) : Event → List PipeEnd
  | Event.pipeCreated i => s ++ [(i, false), (i, true)]
  | Event.parentClosed d => s.filter (fun e => e ≠ d)
  | _ => s

/-- Pipe descriptors open in the orchestrating process after a trace. -/
def parentOpenFds (ev : List Event) : List PipeEnd :=
  ev.foldl fdStep []

def isPipeCreated : Event → Bool
  | Event.pipeCreated _ => true
  | _ => false

def isForked : Event → Bool
  | Event.forked _ => true
  | _ => false

def isWaited : Event → Bool
  | Event.waited _ => true
  | _ => false

/-- All `2 n` descriptors of the `n` inter-stage pipes. -/
def allPipeEnds (n : Nat) : List PipeEnd :=
  (List.range n).flatMap (fun i => [(i, false), (i, true)])

/-- Pipe descriptors closed by the child for stage `idx` of a pipeline with
`n` pipes (`n = num_pipes ≥ 1`, `idx = cmd_index ≤ n`), read off the three
wiring branches of `execute_command_with_pipes_and_redirection`: the first
child closes the read end of pipe 0 and both ends of every later pipe
(lines 433-443); the last child closes the write end of pipe `n-1` and both
ends of every earlier pipe (lines 445-455); a middle child closes, for each
pipe `j`, the write end when `j = idx - 1`, the read end when `j = idx`, and
both ends otherwise (lines 457-475). -/
def childCloses (n idx : Nat) : List PipeEnd :=
  if idx = 0 then
    (0, false) :: (List.range' 1 (n - 1)).flatMap (fun j => [(j, false), (j, true)])
  else if idx = n then
    (n - 1, true) :: (List.range (n - 1)).flatMap (fun j => [(j, false), (j, true)])
  else
    (List.range n).flatMap (fun j =>
      if j = idx - 1 then [(j, true)]
      else if j = idx then [(j, false)]
      else [(j, false), (j, true)])

/-- Pipe descriptors stage child `idx` wires onto its standard streams via
`dup2`: the first child dups pipe 0's write end onto stdout (line 435), the
last dups pipe `n-1`'s read end onto stdin (line 447), a middle child dups
pipe `idx-1`'s read end onto stdin and pipe `idx`'s write end onto stdout
(lines 459-460). -/
def childWired (n idx : Nat) : List PipeEnd :=
  if idx = 0 then [(0, true)]
  else if idx = n then [(n - 1, false)]
  else [(idx - 1, false), (idx, true)]

/-- Original pipe descriptors still open in stage child `idx` when it calls
`execute_single_command` (line 479): the `2 n` descriptors inherited at fork
minus those the child closed.  (The wired duplicates on fd 0/1 are tracked
separately by `childWired`.) -/
def childOpenAtLaunch (n idx : Nat) : List PipeEnd :=
  (allPipeEnds n).filter (fun d => !(childCloses n idx).contains d)

/-- An input or output redirection applied by `execute_single_command`. -/
inductive Redir
  | output (file : Token)
  | input (file : Token)
deriving DecidableEq, Repr

/-- The redirection scan of `execute_single_command` (lines 327-361): walk
the argument vector left to right; at the first `">"` or `"<"` that has a
following token, record the redirection, cut the argument vector there
(`args[i] = NULL`, lines 341/358) and stop (`break`).  A redirection token
with no following token (necessarily the final token) fails the guard
`args[i+1] != NULL` and is kept as an ordinary argument.  Returns the
applied redirection, if any, together with the argument vector that reaches
`execvp` (line 365). -/
def execute_single_command_scan : List Token → Option Redir × List Token
  | [] => (none, [])
  | a :: rest =>
    if a = ">" then
      match rest with
      | f :: _ => (some (Redir.output f), [])
      | [] => (none, [a])
    else if a = "<" then
      match rest with
      | f :: _ => (some (Redir.input f), [])
      | [] => (none, [a])
    else
      let p := execute_single_command_scan rest
      (p.1, a :: p.2)

/-- The flag set of an `open(2)` call, as used by the redirection code. -/
structure OpenFlags where
  wronly : Bool
  creat : Bool
  trunc : Bool
  append : Bool
  mode : Nat
deriving DecidableEq, Repr

/-- The flags of the output-redirection open at line 330:
`open(args[i+1], O_WRONLY | O_CREAT | O_TRUNC, 0644)`. -/
def outputRedirectFlags : OpenFlags :=
  { wronly := true, creat := true, trunc := true, append := false, mode := 0o644 }

/-- A regular file: its byte content and permission mode. -/
structure FileState where
  content : String
  mode : Nat
deriving DecidableEq, Repr

/-- A file system, as a map from names to files. -/
def FileSystem : Type := String → Option FileState

/-- Effect of `open` with flags `fl` on the file system: `O_CREAT` creates a
missing file with the requested mode, `O_TRUNC` empties an existing file's
content (the existing mode is kept, per POSIX `open(2)` semantics). -/
def openFile (fl : OpenFlags) (fs : FileSystem) (name : String) : FileSystem :=
  fun n =>
    if n = name then
      match fs name with
      | some f => some { f with content := if fl.trunc then "" else f.content }
      | none => if fl.creat then some { content := "", mode := fl.mode } else none
    else fs n

/-- One run of a stage carrying `> name`, whose program writes `out` to its
standard output: the file is opened with `outputRedirectFlags` and `dup2`ed
onto stdout (lines 330-340); with `O_APPEND` absent the write position
starts at 0, so the program's output lands after the (truncated) content. -/
def runStageWithOutputRedirect (fs : FileSystem) (name out : String) : FileSystem :=
  fun n =>
    let fs1 := openFile outputRedirectFlags fs name
    if n = name then
      match fs1 name with
      | some f => some { f with content := f.content ++ out }
      | none => none
    else fs1 n

/-- The mode the redirection target has after a run: a pre-existing file
keeps its mode, a created one gets `outputRedirectFlags.mode`. -/
def modeAfterRedirect (fs : FileSystem) (name : String) : Nat :=
  match fs name with
  | some f => f.mode
  | none => outputRedirectFlags.mode

/-- `WIFEXITED(status)` in the POSIX encoding decoded at line 259: the low
seven bits are zero exactly when the child terminated normally. -/
def wifexited (status : Nat) : Bool := status % 128 = 0

/-- `WEXITSTATUS(status)`: bits 8-15 hold the exit code. -/
def wexitstatus (status : Nat) : Nat := status / 256 % 256

/-- The supervisor's error-report condition at line 259:
`WIFEXITED(exit_status) && WEXITSTATUS(exit_status) != 0`. -/
def reportsExitError (status : Nat) : Bool :=
  wifexited status && wexitstatus status != 0

/-- The actions touching shared state that the shell (parent) performs for
one foreground external command. -/
inductive SupervisorAction
  | setForegroundId (pid : Int)
  | clearForegroundId
  | spawnWatchdog
  | waitChild
  | killWatchdog
  | waitWatchdog
  | reportStatus
deriving DecidableEq, Repr

/-- The foreground branch of `main` (lines 236-262), in program order:
record the child pid in `foreground_process_id` (line 237), fork the
watchdog (line 240), wait for the child (line 252), interrupt and reap the
watchdog (lines 255-256), report a non-zero normal exit (lines 259-261).
No step writes `-1` back to `foreground_process_id`; only the background
branch does that (line 233). -/
def foregroundJobActions (pid : Int) : List SupervisorAction :=
  [SupervisorAction.setForegroundId pid, SupervisorAction.spawnWatchdog,
   SupervisorAction.waitChild, SupervisorAction.killWatchdog,
   SupervisorAction.waitWatchdog, SupervisorAction.reportStatus]

/-- Value of the global `foreground_process_id` (line 39) after a list of
supervisor actions, starting from `init`. -/
def foregroundIdAfter (init : Int) (acts : List SupervisorAction) : Int :=
  acts.foldl (fun s a =>
    match a with
    | SupervisorAction.setForegroundId p => p
    | SupervisorAction.clearForegroundId => -1
    | _ => s) init

/-- `handle_interrupt_signal` (lines 506-510): the pid the handler sends
`SIGINT` to when Ctrl+C arrives, or `none` when the slot holds the `-1`
sentinel. -/
def handle_interrupt_signal (foreground_id : Int) : Option Int :=
  if foreground_id ≠ -1 then some foreground_id else none

/-- Result of the `getcwd` call at the top of the prompt loop (line 80). -/
inductive CwdResult
  | okCwd (path : String)
  | failCwd
deriving DecidableEq, Repr

/-- Result of the `fgets` read of one command line (line 89). -/
inductive InputResult
  | okLine (line : String)
  | eofInput
  | errorInput
deriving DecidableEq, Repr

/-- What one prompt-loop iteration does to the shell process itself. -/
inductive ShellOutcome
  | exitShell (code : Int)
  | continueLoop
deriving DecidableEq, Repr

/-- The fatal checks at the top of `main`'s prompt loop (lines 80-98): a
`getcwd` failure exits the shell with status 1 (lines 81-84); when `fgets`
returns NULL, a stream error exits with status 1 (lines 90-93) and
end-of-file exits with status 0 (lines 94-97); otherwise the iteration
proceeds to command processing. -/
def promptStep (cwd : CwdResult) (inp : InputResult) : ShellOutcome :=
  match cwd with
  | CwdResult.failCwd => ShellOutcome.exitShell 1
  | CwdResult.okCwd _ =>
    match inp with
    | InputResult.errorInput => ShellOutcome.exitShell 1
    | InputResult.eofInput => ShellOutcome.exitShell 0
    | InputResult.okLine _ => ShellOutcome.continueLoop

/-- The processes of one shell job, by the fork that creates them. -/
inductive Proc
  | shellProc
  | pipelineChild
  | stageChild
  | watchdogProc
deriving DecidableEq, Repr

/-- What the code handling an error does: exit some process with a status,
or report and let the enclosing flow continue. -/
inductive ErrorDisposition
  | exitProc (p : Proc) (code : Int)
  | reportAndContinue
deriving DecidableEq, Repr

/-- The error taxonomy of the specification. -/
inductive ErrorCategory
  | setupError
  | redirectionError
  | malformedPipeline
  | executionNotFound
  | timeoutExpiry
deriving DecidableEq, Repr

/-- Where each taxonomy error is handled, read off `shell2.c`.  Setup
errors: a `pipe()` or in-pipeline `fork()` failure makes
`execute_command_with_pipes_and_redirection` return inside the per-command
child, which then does `exit(1)` (lines 421-424, 483-486 with 228); a
`dup2` failure exits the stage child (lines 435-438, 447-450, 459-463); a
`fork` failure in `main` itself is `perror` + `continue` (lines 218-221).
Redirection open failures exit the executing child with status 1
(lines 331-334, 348-351).  A malformed pipeline prints and returns in the
per-command child, which exits 1 (lines 390-393 with 228).  `execvp`
failure exits the executing child with status 1 (lines 365-367).  Watchdog
expiry prints a notice, interrupts the foreground child and exits the
watchdog process with 0 (lines 276-280 with 248). -/
def errorDisposition : ErrorCategory → List ErrorDisposition
  | ErrorCategory.setupError =>
    [ErrorDisposition.exitProc Proc.pipelineChild 1,
     ErrorDisposition.exitProc Proc.stageChild 1,
     ErrorDisposition.reportAndContinue]
  | ErrorCategory.redirectionError =>
    [ErrorDisposition.exitProc Proc.stageChild 1,
     ErrorDisposition.exitProc Proc.pipelineChild 1]
  | ErrorCategory.malformedPipeline =>
    [ErrorDisposition.exitProc Proc.pipelineChild 1]
  | ErrorCategory.executionNotFound =>
    [ErrorDisposition.exitProc Proc.stageChild 1,
     ErrorDisposition.exitProc Proc.pipelineChild 1]
  | ErrorCategory.timeoutExpiry =>
    [ErrorDisposition.exitProc Proc.watchdogProc 0]

/-- The process an error disposition terminates, if any. -/
def dispositionExits : ErrorDisposition → Option Proc
  | ErrorDisposition.exitProc p _ => some p
  | ErrorDisposition.reportAndContinue => none

end Shell2

namespace Shell2

/-- The orchestrator's trace up to, but not including, the wait loop. -/
def preWaitEvents (n : Nat) : List Event :=
  ((List.range (n - 1)).map Event.pipeCreated)
    ++ ((List.range n).map Event.forked)
    ++ ((List.range (n - 1)).flatMap
        (fun i => [Event.parentClosed (i, false), Event.parentClosed (i, true)]))

theorem orchestrateEvents_decomp (n : Nat) :
    orchestrateEvents n = preWaitEvents n ++ (List.range n).map Event.waited := by
  simp [orchestrateEvents, preWaitEvents]

theorem countP_map_of_true (p : Event → Bool) (f : Nat → Event) (L : List Nat)
    (h : ∀ i, p (f i) = true) : (L.map f).countP p = L.length := by
  induction L with
  | nil => simp
  | cons a L ih => simp [List.countP_cons, h, ih]

theorem countP_zero_of_false (p : Event → Bool) (l : List Event)
    (h : ∀ e ∈ l, p e = false) : l.countP p = 0 := by
  induction l with
  | nil => simp
  | cons a l ih =>
    simp [List.countP_cons, h a (List.mem_cons_self a l),
      ih (fun e he => h e (List.mem_cons_of_mem a he))]

theorem mem_closeEvents (n : Nat) (e : Event)
    (he : e ∈ (List.range n).flatMap
      (fun i => [Event.parentClosed (i, false), Event.parentClosed (i, true)])) :
    ∃ d, e = Event.parentClosed d := by
  simp only [List.mem_flatMap, List.mem_range, List.mem_cons,
    List.not_mem_nil, or_false] at he
  rcases he with ⟨i, _, h | h⟩ <;> exact ⟨_, h⟩

theorem foldl_fdStep_map_forked (L : List Nat) (s : List PipeEnd) :
    (L.map Event.forked).foldl fdStep s = s := by
  induction L generalizing s with
  | nil => rfl
  | cons a L ih => simpa [fdStep] using ih s

theorem foldl_fdStep_map_waited (L : List Nat) (s : List PipeEnd) :
    (L.map Event.waited).foldl fdStep s = s := by
  induction L generalizing s with
  | nil => rfl
  | cons a L ih => simpa [fdStep] using ih s

theorem foldl_fdStep_pipes (n : Nat) (s : List PipeEnd) :
    ((List.range n).map Event.pipeCreated).foldl fdStep s = s ++ allPipeEnds n := by
  induction n generalizing s with
  | zero => simp [allPipeEnds]
  | succ n ih =>
    rw [List.range_succ, List.map_append, List.foldl_append, ih]
    simp [fdStep, allPipeEnds, List.range_succ]

theorem foldl_fdStep_closes (n : Nat) (s : List PipeEnd) :
    ((List.range n).flatMap
        (fun i => [Event.parentClosed (i, false), Event.parentClosed (i, true)])).foldl
        fdStep s
      = s.filter (fun d => n ≤ d.1) := by
  induction n generalizing s with
  | zero => simp
  | succ n ih =>
    rw [List.range_succ, List.flatMap_append, List.foldl_append, ih]
    simp only [List.flatMap_cons, List.flatMap_nil, List.append_nil,
      List.foldl_cons, List.foldl_nil, fdStep]
    rw [List.filter_filter, List.filter_filter]
    apply List.filter_congr
    rintro ⟨i, b⟩ _
    by_cases hi : i = n
    · subst hi
      cases b <;> simp
    · have h1 : ((i, b) : PipeEnd) ≠ (n, false) := by simp [hi]
      have h2 : ((i, b) : PipeEnd) ≠ (n, true) := by simp [hi]
      simp only [h1, h2, ne_eq, not_false_eq_true, decide_True,
        Bool.true_and]
      rw [decide_eq_decide]
      omega

theorem mem_allPipeEnds (n : Nat) (d : PipeEnd) :
    d ∈ allPipeEnds n ↔ d.1 < n := by
  rcases d with ⟨i, b⟩
  simp only [allPipeEnds, List.mem_flatMap, List.mem_range, List.mem_cons,
    List.not_mem_nil, or_false, Prod.mk.injEq]
  constructor
  · rintro ⟨j, hj, h⟩
    rcases h with ⟨rfl, -⟩ | ⟨rfl, -⟩ <;> exact hj
  · intro h
    exact ⟨i, h, by cases b <;> simp⟩

theorem parentOpenFds_preWait (n : Nat) : parentOpenFds (preWaitEvents n) = [] := by
  rw [parentOpenFds, preWaitEvents, List.foldl_append, List.foldl_append,
    foldl_fdStep_pipes, foldl_fdStep_map_forked, foldl_fdStep_closes]
  rw [List.filter_eq_nil_iff]
  intro d hd
  have := (mem_allPipeEnds (n - 1) d).mp (by simpa using hd)
  simp only [decide_eq_true_eq]
  omega

theorem parentOpenFds_orchestrate (n : Nat) :
    parentOpenFds (orchestrateEvents n) = [] := by
  rw [orchestrateEvents_decomp, parentOpenFds, List.foldl_append]
  rw [show (preWaitEvents n).foldl fdStep [] = parentOpenFds (preWaitEvents n) from rfl,
    parentOpenFds_preWait, foldl_fdStep_map_waited]

theorem splitLoop_no_pipe (toks : List Token) (cur : List Token)
    (acc : List (List Token)) (h : "|" ∉ toks) :
    splitLoop toks cur acc = some (acc ++ [cur ++ toks]) := by
  induction toks generalizing cur acc with
  | nil => simp [splitLoop]
  | cons t rest ih =>
    have ht : t ≠ "|" := fun he => h (he ▸ List.mem_cons_self t rest)
    have hrest : "|" ∉ rest := fun hm => h (List.mem_cons_of_mem t hm)
    simp only [splitLoop, if_neg ht, ih _ _ hrest, List.append_assoc,
      List.singleton_append]

theorem splitLoop_double_pipe (a b : List Token) (cur : List Token)
    (acc : List (List Token)) :
    splitLoop (a ++ "|" :: "|" :: b) cur acc = none := by
  induction a generalizing cur acc with
  | nil =>
    by_cases hc : cur = []
    · simp [splitLoop, hc]
    · simp [splitLoop, hc]
  | cons t a ih =>
    by_cases ht : t = "|"
    · by_cases hc : cur = []
      · simp [splitLoop, ht, hc]
      · simpa [splitLoop, ht, hc] using ih [] (acc ++ [cur])
    · simpa [splitLoop, ht] using ih (cur ++ [t]) acc

end Shell2

namespace Shell2

/-- C1 counterexample: the token sequence `["ls", "|"]` ends with a pipe
symbol, yet the splitter does not reject it — it produces an empty final
stage, and the orchestrator creates a pipe and forks two stage processes
instead of returning before any `pipe()` or `fork()`. -/
theorem trailing_pipe_not_rejected :
    splitPipes ["ls", "|"] = some [["ls"], []] ∧
    (execute_command_with_pipes_and_redirection ["ls", "|"]).2 ≠ [] ∧
    Event.pipeCreated 0 ∈ (execute_command_with_pipes_and_redirection ["ls", "|"]).2 ∧
    Event.forked 0 ∈ (execute_command_with_pipes_and_redirection ["ls", "|"]).2 ∧
    Event.forked 1 ∈ (execute_command_with_pipes_and_redirection ["ls", "|"]).2 := by
  decide

/-- C1 (amended): a token sequence that begins with a pipe symbol or
contains two consecutive pipe symbols is rejected — `splitPipes` reports
`"Invalid pipe command"` (modelled as `none`) and
`execute_command_with_pipes_and_redirection` returns before any `pipe()` or
`fork()`, so the event trace is empty.  (A sequence that merely ends with a
pipe symbol is not rejected; see the counterexample.) -/
theorem malformed_pipeline_rejected_before_spawn (toks : List Token)
    (h : toks.head? = some "|" ∨ ∃ a b, toks = a ++ "|" :: "|" :: b) :
    splitPipes toks = none ∧
    (execute_command_with_pipes_and_redirection toks).2 = [] := by
  have hs : splitPipes toks = none := by
    rcases h with h | ⟨a, b, rfl⟩
    · cases toks with
      | nil => simp at h
      | cons t rest =>
        simp only [List.head?_cons, Option.some.injEq] at h
        subst h
        simp [splitPipes, splitLoop]
    · exact splitLoop_double_pipe a b [] []
  exact ⟨hs, by simp [execute_command_with_pipes_and_redirection, hs]⟩

/-- C1 witness: the leading-pipe input `["|", "ls"]` is rejected with an
empty event trace. -/
theorem malformed_pipeline_rejected_before_spawn_wit :
    splitPipes ["|", "ls"] = none ∧
    (execute_command_with_pipes_and_redirection ["|", "ls"]).2 = [] :=
  malformed_pipeline_rejected_before_spawn ["|", "ls"] (Or.inl rfl)

/-- C2: for every well-formed pipeline of `N ≥ 2` stages, the orchestrator
creates exactly `N - 1` pipes and forks exactly `N` stage processes, waits
on exactly `N` children, and the trace splits into a wait-free part followed
by the waits, with every pipe descriptor of the orchestrating process
already closed at the end of the wait-free part (and hence zero open when
orchestration completes). -/
theorem orchestrator_pipe_fork_and_cleanup (toks : List Token)
    (stages : List (List Token)) (h : splitPipes toks = some stages)
    (h2 : 2 ≤ stages.length) :
    (execute_command_with_pipes_and_redirection toks).2.countP isPipeCreated
        = stages.length - 1 ∧
    (execute_command_with_pipes_and_redirection toks).2.countP isForked
        = stages.length ∧
    (execute_command_with_pipes_and_redirection toks).2.countP isWaited
        = stages.length ∧
    parentOpenFds (execute_command_with_pipes_and_redirection toks).2 = [] ∧
    ∃ pre post,
      (execute_command_with_pipes_and_redirection toks).2 = pre ++ post ∧
      (∀ e ∈ pre, isWaited e = false) ∧
      (∀ e ∈ post, isWaited e = true) ∧
      parentOpenFds pre = [] := by
  have hne : ¬ stages.length - 1 = 0 := by omega
  have hev : (execute_command_with_pipes_and_redirection toks).2
      = orchestrateEvents stages.length := by
    simp [execute_command_with_pipes_and_redirection, h, hne]
  rw [hev]
  have hclosesPipe : ∀ e ∈ (List.range (stages.length - 1)).flatMap
      (fun i => [Event.parentClosed (i, false), Event.parentClosed (i, true)]),
      isPipeCreated e = false := by
    intro e he
    obtain ⟨d, rfl⟩ := mem_closeEvents _ e he
    rfl
  have hclosesFork : ∀ e ∈ (List.range (stages.length - 1)).flatMap
      (fun i => [Event.parentClosed (i, false), Event.parentClosed (i, true)]),
      isForked e = false := by
    intro e he
    obtain ⟨d, rfl⟩ := mem_closeEvents _ e he
    rfl
  have hclosesWait : ∀ e ∈ (List.range (stages.length - 1)).flatMap
      (fun i => [Event.parentClosed (i, false), Event.parentClosed (i, true)]),
      isWaited e = false := by
    intro e he
    obtain ⟨d, rfl⟩ := mem_closeEvents _ e he
    rfl
  refine ⟨?_, ?_, ?_, parentOpenFds_orchestrate _,
    preWaitEvents stages.length, (List.range stages.length).map Event.waited,
    orchestrateEvents_decomp _, ?_, ?_, parentOpenFds_preWait _⟩
  · rw [orchestrateEvents, List.countP_append, List.countP_append,
      List.countP_append, countP_map_of_true _ _ _ (fun _ => rfl),
      countP_zero_of_false _ _ (fun e he => by
        obtain ⟨i, -, rfl⟩ := List.mem_map.mp he; rfl),
      countP_zero_of_false _ _ hclosesPipe,
      countP_zero_of_false _ _ (fun e he => by
        obtain ⟨i, -, rfl⟩ := List.mem_map.mp he; rfl)]
    simp
  · rw [orchestrateEvents, List.countP_append, List.countP_append,
      List.countP_append,
      countP_zero_of_false _ _ (fun e he => by
        obtain ⟨i, -, rfl⟩ := List.mem_map.mp he; rfl),
      countP_map_of_true _ _ _ (fun _ => rfl),
      countP_zero_of_false _ _ hclosesFork,
      countP_zero_of_false _ _ (fun e he => by
        obtain ⟨i, -, rfl⟩ := List.mem_map.mp he; rfl)]
    simp
  · rw [orchestrateEvents, List.countP_append, List.countP_append,
      List.countP_append,
      countP_zero_of_false _ _ (fun e he => by
        obtain ⟨i, -, rfl⟩ := List.mem_map.mp he; rfl),
      countP_zero_of_false _ _ (fun e he => by
        obtain ⟨i, -, rfl⟩ := List.mem_map.mp he; rfl),
      countP_zero_of_false _ _ hclosesWait,
      countP_map_of_true _ _ _ (fun _ => rfl)]
    simp
  · intro e he
    rw [preWaitEvents, List.append_assoc] at he
    rcases List.mem_append.mp he with he | he
    · obtain ⟨i, -, rfl⟩ := List.mem_map.mp he; rfl
    · rcases List.mem_append.mp he with he | he
      · obtain ⟨i, -, rfl⟩ := List.mem_map.mp he; rfl
      · exact hclosesWait e he
  · intro e he
    obtain ⟨i, -, rfl⟩ := List.mem_map.mp he
    rfl

/-- C2 witness: the two-stage pipeline `["a", "|", "b"]`. -/
theorem orchestrator_pipe_fork_and_cleanup_wit :
    (execute_command_with_pipes_and_redirection ["a", "|", "b"]).2.countP isPipeCreated
        = [["a"], ["b"]].length - 1 ∧
    (execute_command_with_pipes_and_redirection ["a", "|", "b"]).2.countP isForked
        = [["a"], ["b"]].length ∧
    (execute_command_with_pipes_and_redirection ["a", "|", "b"]).2.countP isWaited
        = [["a"], ["b"]].length ∧
    parentOpenFds (execute_command_with_pipes_and_redirection ["a", "|", "b"]).2 = [] ∧
    ∃ pre post,
      (execute_command_with_pipes_and_redirection ["a", "|", "b"]).2 = pre ++ post ∧
      (∀ e ∈ pre, isWaited e = false) ∧
      (∀ e ∈ post, isWaited e = true) ∧
      parentOpenFds pre = [] :=
  orchestrator_pipe_fork_and_cleanup ["a", "|", "b"] [["a"], ["b"]]
    (by decide) (by decide)

/-- C7: a token sequence containing no pipe symbol splits into exactly one
stage equal to the input, and `execute_command_with_pipes_and_redirection`
takes the no-pipe fast path — `execute_single_command` is invoked directly
and no pipe is ever created. -/
theorem splitter_no_pipe_single_stage (toks : List Token) (h : "|" ∉ toks) :
    splitPipes toks = some [toks] ∧
    (execute_command_with_pipes_and_redirection toks).2 = [Event.launchedDirect] ∧
    (execute_command_with_pipes_and_redirection toks).2.countP isPipeCreated = 0 := by
  have hs : splitPipes toks = some [toks] := by
    simpa [splitPipes] using splitLoop_no_pipe toks [] [] h
  refine ⟨hs, ?_, ?_⟩ <;>
    simp [execute_command_with_pipes_and_redirection, hs, List.countP_cons,
      isPipeCreated]

/-- C7 witness: the pipe-free input `["ls", "-l"]`. -/
theorem splitter_no_pipe_single_stage_wit :
    splitPipes ["ls", "-l"] = some [["ls", "-l"]] ∧
    (execute_command_with_pipes_and_redirection ["ls", "-l"]).2
        = [Event.launchedDirect] ∧
    (execute_command_with_pipes_and_redirection ["ls", "-l"]).2.countP
        isPipeCreated = 0 :=
  splitter_no_pipe_single_stage ["ls", "-l"] (by decide)

end Shell2

namespace Shell2

/-- C4: for a stage whose first redirection token (scanning left to right)
is `r` with file name `f`, `execute_single_command` honors exactly that
redirection — output when `r` is `">"`, input when `r` is `"<"` — and
truncates the argument vector at the redirection token, so neither the
symbol, the file name, nor anything after them reaches `execvp`; in
particular a later redirection of the other kind is never applied. -/
theorem launcher_first_redirection_wins (pre rest : List Token) (r f : Token)
    (hpre : ∀ t ∈ pre, t ≠ ">" ∧ t ≠ "<") (hr : r = ">" ∨ r = "<") :
    execute_single_command_scan (pre ++ r :: f :: rest)
      = (some (if r = ">" then Redir.output f else Redir.input f), pre) := by
  induction pre with
  | nil => rcases hr with rfl | rfl <;> rfl
  | cons a pre ih =>
    have ha := hpre a (List.mem_cons_self a pre)
    have hpre2 : ∀ t ∈ pre, t ≠ ">" ∧ t ≠ "<" :=
      fun t ht => hpre t (List.mem_cons_of_mem a ht)
    simp [execute_single_command_scan, ha.1, ha.2, ih hpre2]

/-- C4 witness: in `cmd > out < in` the `">"` comes first, so the output
redirection to `out` is applied, the argument vector is cut to `["cmd"]`,
and the later `"<"` is never applied. -/
theorem launcher_first_redirection_wins_wit :
    execute_single_command_scan ["cmd", ">", "out", "<", "in"]
      = (some (if ">" = ">" then Redir.output "out" else Redir.input "out"),
         ["cmd"]) :=
  launcher_first_redirection_wins ["cmd"] ["<", "in"] ">" "out"
    (by decide) (Or.inl rfl)

/-- C10 counterexample: in `["cmd", ">", "f", ">"]` the final token is
`">"` with no file name after it, yet it is not passed through to the
executed program — the earlier redirection `> f` is applied and the
argument vector is truncated to `["cmd"]`, dropping the trailing symbol. -/
theorem trailing_redirection_token_dropped :
    execute_single_command_scan ["cmd", ">", "f", ">"]
      = (some (Redir.output "f"), ["cmd"]) ∧
    ">" ∉ (execute_single_command_scan ["cmd", ">", "f", ">"]).2 := by
  decide

/-- C10 (amended): when a `">"` or `"<"` is the final token and no earlier
redirection token precedes it, `execute_single_command` applies no
redirection and reports no error: the argument vector, trailing symbol
included, is passed unchanged to `execvp`. -/
theorem trailing_redirection_passed_through (pre : List Token) (r : Token)
    (hpre : ∀ t ∈ pre, t ≠ ">" ∧ t ≠ "<") (hr : r = ">" ∨ r = "<") :
    execute_single_command_scan (pre ++ [r]) = (none, pre ++ [r]) := by
  induction pre with
  | nil => rcases hr with rfl | rfl <;> rfl
  | cons a pre ih =>
    have ha := hpre a (List.mem_cons_self a pre)
    have hpre2 : ∀ t ∈ pre, t ≠ ">" ∧ t ≠ "<" :=
      fun t ht => hpre t (List.mem_cons_of_mem a ht)
    simp [execute_single_command_scan, ha.1, ha.2, ih hpre2]

/-- C10 witness: `["wc", "<"]` is executed with the `"<"` kept as an
ordinary argument and no redirection applied. -/
theorem trailing_redirection_passed_through_wit :
    execute_single_command_scan ["wc", "<"] = (none, ["wc", "<"]) := by
  have h := trailing_redirection_passed_through ["wc"] "<"
    (by decide) (Or.inr rfl)
  simpa using h

/-- C8: the output-redirection open uses write-only, create, truncate flags
with creation mode `0644`; after one run the file holds exactly the
program's output (a pre-existing file keeps its mode, a new one gets 0644),
and running the same stage twice with `>` on the same file yields the same
file system as running it once — content is overwritten, never appended. -/
theorem output_redirect_truncates_and_is_idempotent (fs : FileSystem)
    (name out : String) :
    outputRedirectFlags.wronly = true ∧ outputRedirectFlags.creat = true ∧
    outputRedirectFlags.trunc = true ∧ outputRedirectFlags.append = false ∧
    outputRedirectFlags.mode = 0o644 ∧
    runStageWithOutputRedirect fs name out name
      = some { content := out, mode := modeAfterRedirect fs name } ∧
    runStageWithOutputRedirect (runStageWithOutputRedirect fs name out) name out
      = runStageWithOutputRedirect fs name out := by
  have hpoint : ∀ g : FileSystem, runStageWithOutputRedirect g name out name
      = some { content := out, mode := modeAfterRedirect g name } := by
    intro g
    unfold runStageWithOutputRedirect openFile modeAfterRedirect
    cases h : g name <;> simp [h, outputRedirectFlags]
  refine ⟨rfl, rfl, rfl, rfl, rfl, hpoint fs, ?_⟩
  funext n
  by_cases hn : n = name
  · subst hn
    rw [hpoint (runStageWithOutputRedirect fs n out), hpoint fs]
    have hm : modeAfterRedirect (runStageWithOutputRedirect fs n out) n
        = modeAfterRedirect fs n := by
      unfold modeAfterRedirect
      rw [hpoint fs]
      rfl
    rw [hm]
  · simp only [runStageWithOutputRedirect, openFile, if_neg hn]

/-- C9: the supervisor's report condition at line 259 fires exactly when the
child terminated normally (`WIFEXITED`) with a non-zero status, and never
fires for a signal-killed child (`WIFEXITED` false). -/
theorem supervisor_reports_iff_nonzero_exit (status : Nat) :
    (reportsExitError status = true ↔
      (wifexited status = true ∧ wexitstatus status ≠ 0)) ∧
    (wifexited status = false → reportsExitError status = false) := by
  constructor
  · simp [reportsExitError, Bool.and_eq_true, bne_iff_ne]
  · intro h
    simp [reportsExitError, h]

/-- C9 witness: wait status 2 (child killed by SIGINT) produces no error
report. -/
theorem supervisor_reports_iff_nonzero_exit_wit :
    reportsExitError 2 = false :=
  (supervisor_reports_iff_nonzero_exit 2).2 (by decide)

/-- C3 (code bug): after a foreground job with child pid 1234 completes
(child and watchdog both reaped), `foreground_process_id` still holds 1234 —
no supervisor action clears it to the `-1` sentinel — so a Ctrl+C at the
next prompt makes `handle_interrupt_signal` send SIGINT to the stale pid. -/
theorem foreground_id_left_stale :
    foregroundIdAfter (-1) (foregroundJobActions 1234) = 1234 ∧
    handle_interrupt_signal (foregroundIdAfter (-1) (foregroundJobActions 1234))
      = some 1234 ∧
    SupervisorAction.clearForegroundId ∉ foregroundJobActions 1234 := by
  decide

/-- C5 counterexample: a `getcwd` failure at prompt time exits the whole
shell with status 1 even though the standard-input stream is perfectly
readable — so input-stream failure is not the only condition fatal to the
shell. -/
theorem shell_exits_on_getcwd_failure :
    promptStep CwdResult.failCwd (InputResult.okLine "ls")
      = ShellOutcome.exitShell 1 ∧
    promptStep (CwdResult.okCwd "/home") (InputResult.okLine "ls")
      = ShellOutcome.continueLoop :=
  ⟨rfl, rfl⟩

/-- C5 (amended): no error of the taxonomy (setup, redirection, malformed
pipeline, execution-not-found, timeout) exits the shell process — each is
handled by a child-process exit or by report-and-continue — and the
prompt-loop conditions fatal to the shell are exactly `getcwd` failure,
a standard-input stream error, and end of standard input. -/
theorem taxonomy_nonfatal_and_fatal_conditions :
    (∀ c : ErrorCategory, ∀ d ∈ errorDisposition c,
      dispositionExits d ≠ some Proc.shellProc) ∧
    (∀ cwd inp, (∃ code, promptStep cwd inp = ShellOutcome.exitShell code) ↔
      (cwd = CwdResult.failCwd ∨ inp = InputResult.errorInput ∨
        inp = InputResult.eofInput)) := by
  constructor
  · intro c
    cases c <;> decide
  · intro cwd inp
    cases cwd <;> cases inp <;> simp [promptStep]

/-- C5 witness: the malformed-pipeline error exits the per-command child,
not the shell process. -/
theorem taxonomy_nonfatal_and_fatal_conditions_wit :
    dispositionExits (ErrorDisposition.exitProc Proc.pipelineChild 1)
      ≠ some Proc.shellProc :=
  taxonomy_nonfatal_and_fatal_conditions.1 ErrorCategory.malformedPipeline
    (ErrorDisposition.exitProc Proc.pipelineChild 1) (by decide)

end Shell2

namespace Shell2

theorem mem_pairs_flatMap (L : List Nat) (i : Nat) (b : Bool) :
    ((i, b) : PipeEnd) ∈ L.flatMap (fun j => [(j, false), (j, true)]) ↔ i ∈ L := by
  simp only [List.mem_flatMap, List.mem_cons, List.not_mem_nil, or_false,
    Prod.mk.injEq]
  constructor
  · rintro ⟨j, hj, ⟨rfl, -⟩ | ⟨rfl, -⟩⟩ <;> exact hj
  · intro h
    exact ⟨i, h, by cases b <;> simp⟩

theorem mem_middleCloses (n idx i : Nat) (b : Bool) (h0 : idx ≠ 0) :
    (((i, b) : PipeEnd) ∈ (List.range n).flatMap (fun j =>
      if j = idx - 1 then [(j, true)]
      else if j = idx then [(j, false)]
      else [(j, false), (j, true)])) ↔
    (i < n ∧ ((i = idx - 1 ∧ b = true) ∨ (i = idx ∧ b = false) ∨
      (i ≠ idx - 1 ∧ i ≠ idx))) := by
  simp only [List.mem_flatMap, List.mem_range]
  constructor
  · rintro ⟨j, hj, hm⟩
    by_cases e1 : j = idx - 1
    · rw [if_pos e1] at hm
      simp only [List.mem_cons, List.not_mem_nil, or_false,
        Prod.mk.injEq] at hm
      exact ⟨hm.1 ▸ hj, Or.inl ⟨hm.1.trans e1, hm.2⟩⟩
    · rw [if_neg e1] at hm
      by_cases e2 : j = idx
      · rw [if_pos e2] at hm
        simp only [List.mem_cons, List.not_mem_nil, or_false,
          Prod.mk.injEq] at hm
        exact ⟨hm.1 ▸ hj, Or.inr (Or.inl ⟨hm.1.trans e2, hm.2⟩)⟩
      · rw [if_neg e2] at hm
        simp only [List.mem_cons, List.not_mem_nil, or_false,
          Prod.mk.injEq] at hm
        rcases hm with ⟨rfl, -⟩ | ⟨rfl, -⟩ <;>
          exact ⟨hj, Or.inr (Or.inr ⟨e1, e2⟩)⟩
  · rintro ⟨hi, ⟨h1, h2⟩ | ⟨h1, h2⟩ | ⟨e1, e2⟩⟩
    · subst h2
      refine ⟨idx - 1, h1 ▸ hi, ?_⟩
      rw [if_pos rfl]
      simp [h1]
    · subst h2
      refine ⟨idx, h1 ▸ hi, ?_⟩
      rw [if_neg (by omega), if_pos rfl]
      simp [h1]
    · refine ⟨i, hi, ?_⟩
      rw [if_neg e1, if_neg e2]
      cases b <;> simp

/-- C6 counterexample: in a two-stage pipeline (one pipe), the first stage
child dups pipe 0's write end onto stdout but never closes the original
write descriptor — so a pipe descriptor other than the wired standard
streams is still open when the child invokes `execute_single_command`. -/
theorem stage_child_leaves_wired_original_open :
    ((0, true) : PipeEnd) ∈ childWired 1 0 ∧
    ((0, true) : PipeEnd) ∉ childCloses 1 0 ∧
    childOpenAtLaunch 1 0 = [(0, true)] := by
  decide

/-- C6 (amended): every stage child closes exactly the pipe descriptors it
did not wire — both ends of every unrelated pipe and the un-wired end of
each pipe it dup2'ed — while the original descriptors of the wired ends are
left open, so at Stage-Launcher entry the descriptors still open are
precisely the wired originals (harmless: they belong to the same pipes as
the child's own standard streams). -/
theorem stage_child_close_policy (n idx : Nat) (hn : 1 ≤ n) (hidx : idx ≤ n)
    (d : PipeEnd) (hd : d.1 < n) :
    (d ∈ childCloses n idx ↔ d ∉ childWired n idx) ∧
    (d ∈ childOpenAtLaunch n idx ↔ d ∈ childWired n idx) := by
  have hmain : d ∈ childCloses n idx ↔ d ∉ childWired n idx := by
    rcases d with ⟨i, b⟩
    simp only at hd
    by_cases h0 : idx = 0
    · subst h0
      simp only [childCloses, childWired, if_pos rfl, List.mem_cons,
        List.not_mem_nil, or_false, Prod.mk.injEq, mem_pairs_flatMap,
        List.mem_range'_1]
      cases b <;> simp <;> omega
    · by_cases hN : idx = n
      · subst hN
        simp only [childCloses, childWired, if_neg h0, if_pos rfl,
          List.mem_cons, List.not_mem_nil, or_false, Prod.mk.injEq,
          mem_pairs_flatMap, List.mem_range]
        cases b <;> simp <;> omega
      · rw [childCloses, if_neg h0, if_neg hN, childWired, if_neg h0,
          if_neg hN, mem_middleCloses n idx i b h0]
        simp only [List.mem_cons, List.not_mem_nil, or_false,
          Prod.mk.injEq]
        cases b <;> simp <;> omega
  have h2 : (d ∉ childCloses n idx) ↔ d ∈ childWired n idx := by
    rw [hmain]
    exact not_not
  refine ⟨hmain, ?_⟩
  rw [childOpenAtLaunch, List.mem_filter]
  constructor
  · rintro ⟨-, hp⟩
    exact h2.mp (by simpa using hp)
  · intro hw
    refine ⟨(mem_allPipeEnds n d).mpr hd, ?_⟩
    simpa using h2.mpr hw

/-- C6 witness: the middle child of a three-stage pipeline (two pipes)
closes pipe 0's write end (wired pipes' opposite ends are closed), and its
open set at launch matches its wired descriptors. -/
theorem stage_child_close_policy_wit :
    (((0, false) : PipeEnd) ∈ childCloses 2 1 ↔
      ((0, false) : PipeEnd) ∉ childWired 2 1) ∧
    (((0, false) : PipeEnd) ∈ childOpenAtLaunch 2 1 ↔
      ((0, false) : PipeEnd) ∈ childWired 2 1) :=
  stage_child_close_policy 2 1 (by decide) (by decide) (0, false) (by decide)

end Shell2
